import Mathlib

/-!
Shallow embedding of `src/main.go` (guardian/onward): a small HTTP relay that
fetches "most viewed" article lists from the Guardian content API (CAPI),
caches responses per region code for an allow-list of three codes, reshapes
the upstream response into a placeholder item list, and serves it as JSON.

Go machine effects are made explicit:
  * the network is a `World` value (what `http.Get` would return per URL);
  * the go-cache store is an association list with absolute expiration ticks;
  * Go `error` values are their message strings; `errors.Wrap(err, ctx)`
    prepends `ctx ++ ": "`;
  * a `panic` (the unchecked type assertion) and `log.Fatalf` (process stop)
    are modelled as `none` in an `Option` result: no value is returned.
-/

namespace Onward

/-- A JSON document, used to model the bytes of an upstream response body
after `ioutil.ReadAll`: either not valid JSON at all, or a JSON value. -/
inductive Json where
  | null
  | bool (b : Bool)
  | num (n : Int)
  | str (s : String)
  | arr (elems : List Json)
  | obj (fields : List (String × Json))
deriving Repr

/-- `CAPIItem` from main.go: the CAPI item model, one field `ID` with JSON tag `id`. -/
structure CAPIItem where
  ID : String
deriving Repr, DecidableEq

/-- The anonymous inner struct of `CAPIResponse` in main.go:
`Results []CAPIItem` with JSON tag `mostViewed`. -/
structure CAPIResponseInner where
  Results : List CAPIItem
deriving Repr, DecidableEq

/-- `CAPIResponse` from main.go: the main CAPI response model,
field `Response` with JSON tag `response`. -/
structure CAPIResponse where
  Response : CAPIResponseInner
deriving Repr, DecidableEq

/-- `Item` from main.go: the basic article data model. -/
structure Item where
  URL : String
  LinkText : String
  ShowByline : String
  Byline : String
  Image : String
  IsLiveblog : String
deriving Repr, DecidableEq

/-- `ItemList` from main.go. `Trails` is a Go slice `[]Item`; `none` models the
nil slice (which `json.Marshal` serializes as `null`), `some xs` a non-nil slice. -/
structure ItemList where
  Heading : String
  Trails : Option (List Item)
deriving Repr, DecidableEq

/-- `errors.Wrap(err, ctx)` from github.com/pkg/errors: the wrapped error's
message is `ctx ++ ": " ++ err.Error()`. Errors are modelled by their message. -/
def errWrap (ctx msg : String) : String := ctx ++ ": " ++ msg

/-- A value stored in the go-cache store, which holds `interface\x7b\x7d`:
either a `CAPIResponse` (what this program stores) or any other value. -/
inductive CacheVal where
  | capi (r : CAPIResponse)
  | other (tag : String)
deriving Repr, DecidableEq

/-- The Go type assertion `v.(CAPIResponse)`: succeeds exactly on `capi` values;
`none` means the unchecked assertion would panic. -/
def CacheVal.asCAPIResponse : CacheVal → Option CAPIResponse
  | .capi r => some r
  | .other _ => none

/-- Modelled from the spec: one entry of the go-cache store
(github.com/patrickmn/go-cache, not under src/): the stored value together
with its absolute expiration tick. -/
structure CacheEntry where
  Object : CacheVal
  Expiration : Nat
deriving Repr, DecidableEq

/-- Modelled from the spec: the go-cache store (library not under src/): a
time-expiring map from region code to stored value, with the default TTL
fixed at construction (`cache.New(5*time.Minute, ...)` in main.go). -/
structure Cache where
  defaultExpiration : Nat
  items : List (String × CacheEntry)
deriving Repr, DecidableEq

/-- Modelled from the spec: `cache.New` — an empty store with the given default TTL. -/
def cacheNew (ttl : Nat) : Cache :=
  { defaultExpiration := ttl, items := [] }

/-- Modelled from the spec: go-cache `c.Get(k)` at time `now` — found iff an
entry exists and is not expired (`now > Expiration` means expired). -/
def Cache.get (c : Cache) (now : Nat) (k : String) : Option CacheVal :=
  match c.items.lookup k with
  | none => none
  | some e => if now > e.Expiration then none else some e.Object

/-- Modelled from the spec: go-cache `c.Set(k, v, cache.DefaultExpiration)` at
time `now` — stores `v` under `k` expiring at `now + defaultExpiration`,
replacing any previous entry for `k`. -/
def Cache.set (c : Cache) (now : Nat) (k : String) (v : CacheVal) : Cache :=
  { c with
    items := (k, { Object := v, Expiration := now + c.defaultExpiration })
      :: c.items.filter (fun p => p.1 != k) }

/-- The bytes of an upstream response body: either not valid JSON, or a JSON value. -/
inductive RawBody where
  | malformed (raw : String)
  | wellFormed (j : Json)
deriving Repr

/-- What `http.Get(url)` returns: a transport error, or a response with a
status code and a body whose full read (`ioutil.ReadAll`) either fails or
yields bytes. -/
inductive HttpGetResult where
  | transportError (msg : String)
  | response (statusCode : Nat) (readBody : Except String RawBody)
deriving Repr

/-- The network environment: what `http.Get` would return for each URL. -/
structure World where
  httpGet : String → HttpGetResult

/-- The hardcoded `APIKey` from `capiGet`. -/
def APIKey : String := "test"

/-- The URL built by `capiGet` via `fmt.Sprintf`. -/
def capiURL (path : String) : String :=
  "https://content.guardianapis.com/" ++ path ++ "?show-most-viewed=true&api-key=" ++ APIKey

/-- The last occurrence of key `k` among JSON object fields; encoding/json
applies object keys in order, so a duplicate key's last value wins. -/
def jsonField (fields : List (String × Json)) (k : String) : Option Json :=
  ((fields.filter (fun p => p.1 == k)).getLast?).map Prod.snd

/-- Modelled from the spec: `json.Unmarshal` (Go stdlib, not under src/) into
`CAPIItem` — an object sets `ID` from a string field `id` (missing or null
leaves the zero value ""); null leaves the zero value; any other JSON value,
or a non-string non-null `id`, is a type error. -/
def decodeCAPIItem : Json → Except String CAPIItem
  | .null => .ok { ID := "" }
  | .obj fields =>
    match jsonField fields "id" with
    | none => .ok { ID := "" }
    | some .null => .ok { ID := "" }
    | some (.str s) => .ok { ID := s }
    | some _ => .error "cannot unmarshal value into Go struct field CAPIItem.id of type string"
  | _ => .error "cannot unmarshal value into Go value of type main.CAPIItem"

/-- Modelled from the spec: `json.Unmarshal` into `[]CAPIItem` — null leaves
the nil slice, an array decodes elementwise, anything else is a type error. -/
def decodeResults : Json → Except String (List CAPIItem)
  | .null => .ok []
  | .arr elems => elems.mapM decodeCAPIItem
  | _ => .error "cannot unmarshal value into Go value of type []main.CAPIItem"

/-- Modelled from the spec: `json.Unmarshal` into the anonymous inner struct of
`CAPIResponse` — reads the `mostViewed` field when present. -/
def decodeInner : Json → Except String CAPIResponseInner
  | .null => .ok { Results := [] }
  | .obj fields =>
    match jsonField fields "mostViewed" with
    | none => .ok { Results := [] }
    | some j => (decodeResults j).map (fun rs => { Results := rs })
  | _ => .error "cannot unmarshal value into Go value of type struct"

/-- Modelled from the spec: `json.Unmarshal` into `CAPIResponse` — reads the
`response` field when present. -/
def decodeCAPIResponse : Json → Except String CAPIResponse
  | .null => .ok { Response := { Results := [] } }
  | .obj fields =>
    match jsonField fields "response" with
    | none => .ok { Response := { Results := [] } }
    | some j => (decodeInner j).map (fun inner => { Response := inner })
  | _ => .error "cannot unmarshal value into Go value of type main.CAPIResponse"

/-- Modelled from the spec: `json.Unmarshal(body, &response)` on the body
bytes — fails on bytes that are not valid JSON, else decodes the JSON value. -/
def jsonUnmarshalCAPIResponse : RawBody → Except String CAPIResponse
  | .malformed _ => .error "invalid character in JSON input"
  | .wellFormed j => decodeCAPIResponse j

/-- `capiGet` from main.go: builds the CAPI URL, does `http.Get`, reads the
body, unmarshals it. Each failure is wrapped with its own context string.
The response status code is never inspected. -/
def capiGet (path : String) (w : World) : Except String CAPIResponse :=
  match w.httpGet (capiURL path) with
  | .transportError e => .error (errWrap "GET failed" e)
  | .response _ readRes =>
    match readRes with
    | .error e => .error (errWrap "Unable to read response body" e)
    | .ok body =>
      match jsonUnmarshalCAPIResponse body with
      | .error e => .error (errWrap "Unable to unmarshal response body" e)
      | .ok r => .ok r

/-- The outcome of one fetch (cached or direct): the Go `(CAPIResponse, error)`
pair as `Except`, the cache state afterwards, and whether `capiGet` ran
(instrumentation of the one call site on the miss path). -/
structure FetchResult where
  result : Except String CAPIResponse
  cache : Cache
  fetched : Bool
deriving Repr

/-- `cachedGet` from main.go: on a hit returns the stored value through the
unchecked type assertion `items.(CAPIResponse)` (`none` = panic); on a miss
calls `capiGet`, wraps a failure with "CAPI GET failed" leaving the cache
unchanged, and on success stores the value with the default expiration. -/
def cachedGet (path : String) (c : Cache) (now : Nat) (w : World) : Option FetchResult :=
  match c.get now path with
  | some v =>
    match v.asCAPIResponse with
    | some r => some { result := .ok r, cache := c, fetched := false }
    | none => none
  | none =>
    match capiGet path w with
    | .error e => some { result := .error (errWrap "CAPI GET failed" e), cache := c, fetched := true }
    | .ok items => some { result := .ok items, cache := c.set now path (.capi items), fetched := true }

/-- The loop body of `asItemList`: every display field other than `URL` is the
placeholder "foo". -/
def mkItem (capiItem : CAPIItem) : Item :=
  { URL := capiItem.ID
    LinkText := "foo"
    ShowByline := "foo"
    Byline := "foo"
    Image := "foo"
    IsLiveblog := "foo" }

/-- Go `append` on an `[]Item` slice: appending to the nil slice yields a
non-nil slice. -/
def goAppend (s : Option (List Item)) (x : Item) : Option (List Item) :=
  some (s.getD [] ++ [x])

/-- `CAPIResponse.asItemList` from main.go: `var items []Item` starts nil, the
loop appends one placeholder `Item` per result, and the list is wrapped with
the constant heading. -/
def CAPIResponse.asItemList (resp : CAPIResponse) : ItemList :=
  { Heading := "Placeholder heading"
    Trails := resp.Response.Results.foldl (fun acc capiItem => goAppend acc (mkItem capiItem)) none }

/-- One hex digit, lower case, as encoding/json uses in \u escapes. -/
def hexDigitChar (n : Nat) : Char :=
  (String.toList "0123456789abcdef").getD n (Char.ofNat 48)

/-- Modelled from the spec: encoding/json string escaping (Go stdlib, not
under src/) — quotes, backslashes, HTML characters and control characters are
escaped; everything else is emitted verbatim. -/
def jsonEscapeChar (ch : Char) : String :=
  if ch = Char.ofNat 34 then "\\\""
  else if ch = Char.ofNat 92 then "\\\\"
  else if ch = Char.ofNat 60 then "\\u003c"
  else if ch = Char.ofNat 62 then "\\u003e"
  else if ch = Char.ofNat 38 then "\\u0026"
  else if ch = Char.ofNat 10 then "\\n"
  else if ch = Char.ofNat 13 then "\\r"
  else if ch = Char.ofNat 9 then "\\t"
  else if ch.toNat < 32 then
    "\\u00" ++ String.mk [hexDigitChar (ch.toNat / 16), hexDigitChar (ch.toNat % 16)]
  else String.mk [ch]

/-- Modelled from the spec: encoding/json marshalling of a Go string. -/
def jsonEncodeString (s : String) : String :=
  "\"" ++ String.join (s.toList.map jsonEscapeChar) ++ "\""

/-- Modelled from the spec: encoding/json marshalling of an `Item`, following
the struct tags in main.go. -/
def jsonEncodeItem (it : Item) : String :=
  "\x7b\"url\":" ++ jsonEncodeString it.URL
    ++ ",\"linkText\":" ++ jsonEncodeString it.LinkText
    ++ ",\"showByline\":" ++ jsonEncodeString it.ShowByline
    ++ ",\"byline\":" ++ jsonEncodeString it.Byline
    ++ ",\"image\":" ++ jsonEncodeString it.Image
    ++ ",\"isLiveBlog\":" ++ jsonEncodeString it.IsLiveblog
    ++ "\x7d"

/-- Modelled from the spec: encoding/json marshalling of `[]Item` — the nil
slice serializes as `null`, a non-nil slice as an array. -/
def jsonEncodeTrails : Option (List Item) → String
  | none => "null"
  | some xs => "[" ++ String.intercalate "," (xs.map jsonEncodeItem) ++ "]"

/-- Modelled from the spec: encoding/json marshalling of an `ItemList`,
following the struct tags in main.go. -/
def jsonEncodeItemList (il : ItemList) : String :=
  "\x7b\"heading\":" ++ jsonEncodeString il.Heading
    ++ ",\"trails\":" ++ jsonEncodeTrails il.Trails ++ "\x7d"

/-- Modelled from the spec: `json.Marshal` on an `ItemList` — a value of
strings and a slice of string-structs contains no channel, function, cyclic or
non-finite value, so marshalling always succeeds with the encoded bytes. -/
def jsonMarshalItemList (il : ItemList) : Except String String :=
  .ok (jsonEncodeItemList il)

/-- The branch structure of `ItemList.asJSON` over the outcome of
`json.Marshal`: a marshalling error hits `log.Fatalf`, stopping the process
with no return value (`none`); success returns the bytes. -/
def asJSONofMarshal : Except String String → Option String
  | .error _ => none
  | .ok b => some b

/-- `ItemList.asJSON` from main.go. -/
def ItemList.asJSON (il : ItemList) : Option String :=
  asJSONofMarshal (jsonMarshalItemList il)

/-- The observable HTTP response of one request, plus what was logged
server-side. -/
structure HttpOut where
  status : Nat
  contentType : Option String
  body : String
  logged : Option String
deriving Repr, DecidableEq

/-- `errorResponse` from main.go: logs the error and writes a bare 500 —
no body, no content type, no error detail to the caller. -/
def errorResponse (e : String) : HttpOut :=
  { status := 500, contentType := none, body := "", logged := some e }

/-- Go `strings.TrimPrefix(s, pre)`: drops `pre` when it leads `s`, else `s`
(computed on the character sequences). -/
def trimPfx (s pre : String) : String :=
  if pre.data.isPrefixOf s.data then String.mk (s.data.drop pre.data.length) else s

/-- The region code the handler extracts:
`strings.TrimPrefix(r.URL.Path, "/most-viewed/")`. -/
def routeCode (reqPath : String) : String :=
  trimPfx reqPath "/most-viewed/"

/-- The switch condition in `mostViewedHandler`: the allow-list of region
codes eligible for caching. -/
def cacheable (path : String) : Bool :=
  path == "uk" || path == "us" || path == "au"

/-- The fetch step of `mostViewedHandler`: the switch on the trimmed path —
allow-listed codes go through the cache, everything else calls `capiGet`
directly with the cache untouched. -/
def fetchVia (path : String) (c : Cache) (now : Nat) (w : World) : Option FetchResult :=
  if cacheable path then cachedGet path c now w
  else some { result := capiGet path w, cache := c, fetched := true }

/-- The outcome of one request: the HTTP response, the cache state afterwards,
and whether `capiGet` ran. -/
structure HandlerResult where
  out : HttpOut
  cache : Cache
  fetched : Bool
deriving Repr

/-- `mostViewedHandler` from main.go (for one request): trims the route
prefix, fetches via the cache or directly, renders an error as a bare 500,
and otherwise serves the reshaped JSON with content type application/json and
status 200 (Go writes 200 implicitly on the first `Write`). `none` models a
process-level stop (a panicking type assertion or `log.Fatalf`). -/
def mostViewedHandler (reqPath : String) (c : Cache) (now : Nat) (w : World) :
    Option HandlerResult :=
  match fetchVia (routeCode reqPath) c now w with
  | none => none
  | some fr =>
    match fr.result with
    | .error e => some { out := errorResponse e, cache := fr.cache, fetched := fr.fetched }
    | .ok items =>
      match items.asItemList.asJSON with
      | none => none
      | some respJSON =>
        some { out := { status := 200, contentType := some "application/json",
                        body := respJSON, logged := none },
               cache := fr.cache, fetched := fr.fetched }

/-- The cache states reachable by this program: the store starts empty
(`cache.New` in `main`) and is only ever changed by requests going through
`mostViewedHandler`. -/
inductive Reachable : Cache → Prop where
  | init (ttl : Nat) : Reachable (cacheNew ttl)
  | step (c : Cache) (reqPath : String) (now : Nat) (w : World) (hr : HandlerResult) :
      Reachable c → mostViewedHandler reqPath c now w = some hr → Reachable hr.cache

/-- Every value stored in the cache is a `CAPIResponse` behind the `capi`
constructor. -/
def CacheWF (c : Cache) : Prop :=
  ∀ k e, (k, e) ∈ c.items → ∃ r, e.Object = CacheVal.capi r

/-- The zero value of `Item`, used as the default for total indexing. -/
def dfltItem : Item :=
  { URL := "", LinkText := "", ShowByline := "", Byline := "", Image := "", IsLiveblog := "" }

/-- The zero value of `CAPIItem`, used as the default for total indexing. -/
def dfltCAPIItem : CAPIItem := { ID := "" }

/-- A concrete upstream response with two result identifiers "a" and "b". -/
def respAB : CAPIResponse :=
  { Response := { Results := [{ ID := "a" }, { ID := "b" }] } }

/-- A concrete JSON body of the documented upstream shape with ids "a", "b". -/
def jsonBodyAB : Json :=
  .obj [("response", .obj [("mostViewed",
    .arr [.obj [("id", .str "a")], .obj [("id", .str "b")]])])]

/-- A network where every GET succeeds with status 200 and the body `jsonBodyAB`. -/
def wOK : World :=
  { httpGet := fun _ => .response 200 (.ok (.wellFormed jsonBodyAB)) }

/-- A network where every GET yields status 503 with a JSON-parseable error
body of the upstream envelope shape (no results). -/
def w503 : World :=
  { httpGet := fun _ => .response 503
      (.ok (.wellFormed (.obj [("response", .obj [("mostViewed", .arr [])])]))) }

/-- A network where every GET fails at the transport level. -/
def wDown : World :=
  { httpGet := fun _ => .transportError "connection refused" }

/-- A network where every GET succeeds but the body is not valid JSON. -/
def wBadJSON : World :=
  { httpGet := fun _ => .response 200 (.ok (.malformed "<html>oops")) }

/-- A network where every GET succeeds but reading the body fails. -/
def wBadRead : World :=
  { httpGet := fun _ => .response 200 (.error "unexpected EOF") }

/-- A concrete cache holding an unexpired entry for "uk". -/
def cacheWithUK : Cache :=
  { defaultExpiration := 300, items := [("uk", { Object := .capi respAB, Expiration := 100 })] }

/-! ## Helper lemmas -/

lemma foldl_goAppend_some (l : List CAPIItem) (ys : List Item) :
    l.foldl (fun acc capiItem => goAppend acc (mkItem capiItem)) (some ys)
      = some (ys ++ l.map mkItem) := by
  induction l generalizing ys with
  | nil => simp
  | cons hd tl ih =>
    rw [List.foldl_cons]
    have h1 : goAppend (some ys) (mkItem hd) = some (ys ++ [mkItem hd]) := rfl
    rw [h1, ih]
    simp

lemma asItemList_trails (resp : CAPIResponse) :
    resp.asItemList.Trails.getD [] = resp.Response.Results.map mkItem := by
  cases hl : resp.Response.Results with
  | nil => simp [CAPIResponse.asItemList, hl]
  | cons hd tl =>
    simp only [CAPIResponse.asItemList, hl, List.foldl_cons]
    have h1 : goAppend none (mkItem hd) = some [mkItem hd] := rfl
    rw [h1, foldl_goAppend_some]
    simp

lemma map_mkItem_getD (l : List CAPIItem) (i : Nat) (h : i < l.length) :
    (l.map mkItem).getD i dfltItem = mkItem (l.getD i dfltCAPIItem) := by
  induction l generalizing i with
  | nil => simp at h
  | cons hd tl ih =>
    cases i with
    | zero => simp
    | succ n =>
      simp only [List.map_cons, List.getD_cons_succ]
      exact ih n (by simpa using h)

/-! ## Theorems for the claims -/

/-- C1: `asItemList` produces one trail item per upstream result identifier,
in upstream order, with the i-th item's URL equal to the i-th identifier,
every other display field equal to the placeholder "foo", and the constant
heading "Placeholder heading" regardless of input. -/
theorem asItemList_placeholder_items (resp : CAPIResponse) :
    resp.asItemList.Heading = "Placeholder heading" ∧
    (resp.asItemList.Trails.getD []).length = resp.Response.Results.length ∧
    ∀ i, i < resp.Response.Results.length →
      ((resp.asItemList.Trails.getD []).getD i dfltItem).URL
          = (resp.Response.Results.getD i dfltCAPIItem).ID ∧
      ((resp.asItemList.Trails.getD []).getD i dfltItem).LinkText = "foo" ∧
      ((resp.asItemList.Trails.getD []).getD i dfltItem).ShowByline = "foo" ∧
      ((resp.asItemList.Trails.getD []).getD i dfltItem).Byline = "foo" ∧
      ((resp.asItemList.Trails.getD []).getD i dfltItem).Image = "foo" ∧
      ((resp.asItemList.Trails.getD []).getD i dfltItem).IsLiveblog = "foo" := by
  refine ⟨rfl, ?_, ?_⟩
  · rw [asItemList_trails]; simp
  · intro i hi
    rw [asItemList_trails, map_mkItem_getD _ _ hi]
    exact ⟨rfl, rfl, rfl, rfl, rfl, rfl⟩

/-- Witness for C1 at a concrete two-element upstream response. -/
theorem asItemList_placeholder_items_witness :
    (0 < respAB.Response.Results.length) ∧
    ((respAB.asItemList.Trails.getD []).getD 0 dfltItem).URL
        = (respAB.Response.Results.getD 0 dfltCAPIItem).ID :=
  ⟨by decide, ((asItemList_placeholder_items respAB).2.2 0 (by decide)).1⟩

/-- C9: on an upstream response with no results, `asItemList` leaves `Trails`
as the nil slice, and the served JSON body is exactly
`\x7b"heading":"Placeholder heading","trails":null\x7d` — `trails` serializes as
`null`, not `[]`. -/
theorem emptyResults_trails_null (resp : CAPIResponse)
    (h : resp.Response.Results = []) :
    resp.asItemList.Trails = none ∧
    resp.asItemList.asJSON
      = some "\x7b\"heading\":\"Placeholder heading\",\"trails\":null\x7d" := by
  have hil : resp.asItemList = ItemList.mk "Placeholder heading" none := by
    simp [CAPIResponse.asItemList, h]
  rw [hil]
  exact ⟨rfl, rfl⟩

/-- Witness for C9 at the empty concrete upstream response. -/
theorem emptyResults_trails_null_witness :
    (CAPIResponse.mk (CAPIResponseInner.mk [])).asItemList.Trails = none ∧
    (CAPIResponse.mk (CAPIResponseInner.mk [])).asItemList.asJSON
      = some "\x7b\"heading\":\"Placeholder heading\",\"trails\":null\x7d" :=
  emptyResults_trails_null (CAPIResponse.mk (CAPIResponseInner.mk [])) rfl

/-- C8: a `json.Marshal` failure makes `asJSON` stop the process fatally with
no return value (`none`: no request-level 500 is produced), and whenever
marshalling succeeds, `asJSON` returns exactly the encoded bytes. -/
theorem asJSON_fatal_or_bytes :
    (∀ e, asJSONofMarshal (Except.error e) = none) ∧
    (∀ (il : ItemList) (b : String),
      jsonMarshalItemList il = Except.ok b → il.asJSON = some b) := by
  refine ⟨fun e => rfl, fun il b hb => ?_⟩
  simp [ItemList.asJSON, hb, asJSONofMarshal]

/-- Witness for C8 at a concrete item list with a non-nil empty trails slice. -/
theorem asJSON_fatal_or_bytes_witness :
    ItemList.asJSON (ItemList.mk "Placeholder heading" (some []))
      = some "\x7b\"heading\":\"Placeholder heading\",\"trails\":[]\x7d" := by
  exact asJSON_fatal_or_bytes.2 (ItemList.mk "Placeholder heading" (some []))
    (jsonEncodeItemList (ItemList.mk "Placeholder heading" (some []))) rfl

/-- C3: on a cache hit for an allow-listed code, `cachedGet` returns the
stored value with no error, performs no upstream fetch (for every network
state, with `fetched = false`), and leaves the cache unchanged. -/
theorem cachedGet_hit_no_fetch (path : String) (c : Cache) (now : Nat) (w : World)
    (r : CAPIResponse) (_hallow : cacheable path = true)
    (hhit : c.get now path = some (CacheVal.capi r)) :
    cachedGet path c now w
      = some { result := Except.ok r, cache := c, fetched := false } := by
  simp [cachedGet, hhit, CacheVal.asCAPIResponse]

/-- Witness for C3: a hit on "uk" is served even while the network is down. -/
theorem cachedGet_hit_no_fetch_witness :
    cachedGet "uk" cacheWithUK 0 wDown
      = some { result := Except.ok respAB, cache := cacheWithUK, fetched := false } :=
  cachedGet_hit_no_fetch "uk" cacheWithUK 0 wDown respAB rfl rfl

/-- C5: on a cache miss for an allow-listed code where the upstream fetch
fails, `cachedGet` returns the error wrapped with "CAPI GET failed" and
leaves the cache unchanged (no entry is populated). -/
theorem cachedGet_miss_error_wrapped (path : String) (c : Cache) (now : Nat) (w : World)
    (e : String) (_hallow : cacheable path = true)
    (hmiss : c.get now path = none) (herr : capiGet path w = Except.error e) :
    cachedGet path c now w
      = some { result := Except.error (errWrap "CAPI GET failed" e),
               cache := c, fetched := true } := by
  simp [cachedGet, hmiss, herr]

/-- Witness for C5: a miss on "uk" with the network down yields the doubly
wrapped error and the cache stays empty. -/
theorem cachedGet_miss_error_wrapped_witness :
    cachedGet "uk" (cacheNew 300) 0 wDown
      = some { result := Except.error "CAPI GET failed: GET failed: connection refused",
               cache := cacheNew 300, fetched := true } := by
  exact cachedGet_miss_error_wrapped "uk" (cacheNew 300) 0 wDown
    "GET failed: connection refused" rfl rfl rfl

/-- C7: `capiGet` succeeds exactly when the transport call, the body read and
the JSON parse all succeed, and each failure mode is wrapped with its own
context string: "GET failed" (transport), "Unable to read response body"
(read), "Unable to unmarshal response body" (parse); on success it returns
the parsed upstream response. -/
theorem capiGet_error_characterization (path : String) (w : World) :
    ((∃ r, capiGet path w = Except.ok r) ↔
      (∃ sc body r, w.httpGet (capiURL path) = .response sc (.ok body) ∧
        jsonUnmarshalCAPIResponse body = Except.ok r)) ∧
    (∀ e, w.httpGet (capiURL path) = .transportError e →
      capiGet path w = Except.error (errWrap "GET failed" e)) ∧
    (∀ sc e, w.httpGet (capiURL path) = .response sc (.error e) →
      capiGet path w = Except.error (errWrap "Unable to read response body" e)) ∧
    (∀ sc body e, w.httpGet (capiURL path) = .response sc (.ok body) →
      jsonUnmarshalCAPIResponse body = Except.error e →
      capiGet path w = Except.error (errWrap "Unable to unmarshal response body" e)) ∧
    (∀ sc body r, w.httpGet (capiURL path) = .response sc (.ok body) →
      jsonUnmarshalCAPIResponse body = Except.ok r →
      capiGet path w = Except.ok r) := by
  refine ⟨⟨?_, ?_⟩, ?_, ?_, ?_, ?_⟩
  · rintro ⟨r, hr⟩
    cases hw : w.httpGet (capiURL path) with
    | transportError e => simp [capiGet, hw] at hr
    | response sc rb =>
      cases rb with
      | error e => simp [capiGet, hw] at hr
      | ok body =>
        cases hj : jsonUnmarshalCAPIResponse body with
        | error e => simp [capiGet, hw, hj] at hr
        | ok r2 =>
          simp only [capiGet, hw, hj] at hr
          obtain rfl := Except.ok.inj hr
          exact ⟨sc, body, r2, rfl, hj⟩
  · rintro ⟨sc, body, r, hw, hj⟩
    exact ⟨r, by simp [capiGet, hw, hj]⟩
  · intro e hw; simp [capiGet, hw]
  · intro sc e hw; simp [capiGet, hw]
  · intro sc body e hw hj; simp [capiGet, hw, hj]
  · intro sc body r hw hj; simp [capiGet, hw, hj]

/-- Witness for C7: a transport failure comes back wrapped with "GET failed". -/
theorem capiGet_error_characterization_witness :
    capiGet "uk" wDown = Except.error "GET failed: connection refused" := by
  exact (capiGet_error_characterization "uk" wDown).2.1 "connection refused" rfl

/-- C2: when the trimmed region code is outside the allow-list, the handler
goes straight to the upstream fetch: its response is the same for any two
cache states (the cache is not consulted), the cache it returns is exactly
the one it was given (the cache is not modified), and `capiGet` runs. -/
theorem handler_cache_bypass_outside_allowlist (reqPath : String) (now : Nat) (w : World)
    (c₁ c₂ : Cache) (h : cacheable (routeCode reqPath) = false) :
    mostViewedHandler reqPath c₁ now w
      = (mostViewedHandler reqPath c₂ now w).map (fun hr => { hr with cache := c₁ }) ∧
    (mostViewedHandler reqPath c₁ now w).map (fun hr => hr.cache) = some c₁ ∧
    (mostViewedHandler reqPath c₁ now w).map (fun hr => hr.fetched) = some true := by
  cases hcg : capiGet (routeCode reqPath) w with
  | error e =>
    refine ⟨?_, ?_, ?_⟩ <;>
      simp [mostViewedHandler, fetchVia, h, hcg]
  | ok items =>
    refine ⟨?_, ?_, ?_⟩ <;>
      simp [mostViewedHandler, fetchVia, h, hcg, ItemList.asJSON,
        jsonMarshalItemList, asJSONofMarshal]

/-- Witness for C2: a request for the non-allow-listed code "fr" behaves the
same against an empty cache and against a populated one, and leaves each
cache as it was while fetching upstream. -/
theorem handler_cache_bypass_outside_allowlist_witness :
    (mostViewedHandler "/most-viewed/fr" (cacheNew 300) 0 wOK
      = (mostViewedHandler "/most-viewed/fr" cacheWithUK 0 wOK).map
          (fun hr => { hr with cache := cacheNew 300 })) ∧
    (mostViewedHandler "/most-viewed/fr" (cacheNew 300) 0 wOK).map (fun hr => hr.cache)
      = some (cacheNew 300) ∧
    (mostViewedHandler "/most-viewed/fr" (cacheNew 300) 0 wOK).map (fun hr => hr.fetched)
      = some true :=
  handler_cache_bypass_outside_allowlist "/most-viewed/fr" 0 wOK (cacheNew 300) cacheWithUK rfl

/-- C6: whatever the fetch step (cached or direct) produced, an error is
rendered as exactly a bare 500 — empty body, no content type, the error
logged server-side — and a success as the reshaped JSON with status 200 and
content type application/json. -/
theorem handler_response_shape (reqPath : String) (c : Cache) (now : Nat) (w : World)
    (fr : FetchResult) (hf : fetchVia (routeCode reqPath) c now w = some fr) :
    (∀ e, fr.result = Except.error e →
      mostViewedHandler reqPath c now w
        = some { out := { status := 500, contentType := none, body := "", logged := some e },
                 cache := fr.cache, fetched := fr.fetched }) ∧
    (∀ items, fr.result = Except.ok items →
      mostViewedHandler reqPath c now w
        = some { out := { status := 200, contentType := some "application/json",
                          body := jsonEncodeItemList items.asItemList, logged := none },
                 cache := fr.cache, fetched := fr.fetched }) := by
  constructor
  · intro e he
    simp [mostViewedHandler, hf, he, errorResponse]
  · intro items hi
    simp [mostViewedHandler, hf, hi, ItemList.asJSON, jsonMarshalItemList, asJSONofMarshal]

/-- Witness for C6: with the network down, a direct fetch for "fr" is rendered
as a bare 500 whose detail appears only in the log. -/
theorem handler_response_shape_witness :
    mostViewedHandler "/most-viewed/fr" (cacheNew 300) 0 wDown
      = some { out := { status := 500, contentType := none, body := "",
                        logged := some "GET failed: connection refused" },
               cache := cacheNew 300, fetched := true } := by
  exact (handler_response_shape "/most-viewed/fr" (cacheNew 300) 0 wDown
    { result := Except.error "GET failed: connection refused",
      cache := cacheNew 300, fetched := true } rfl).1
    "GET failed: connection refused" rfl

/-- Counterexample to C4 as stated: the code never inspects the upstream
status code. A request for "uk" whose upstream answer is a non-2xx status
(503) with a JSON-parseable body is treated as a success: the handler
responds 200, not 500, and a cache entry is written for "uk". -/
theorem handler_non2xx_success_cex :
    (mostViewedHandler "/most-viewed/uk" (cacheNew 300) 0 w503).map
        (fun hr => (hr.out.status, hr.cache.items.length)) = some (200, 1) := by
  rfl

/-- C4 (amended): for an allow-listed region code with no usable cache entry,
if the upstream *fetch* fails — transport error, body-read failure, or JSON
parse failure — the handler responds 500 and writes no cache entry; a non-2xx
status alone is not an error. -/
theorem handler_fetch_error_500_no_cache_write (reqPath : String) (c : Cache) (now : Nat)
    (w : World) (e : String)
    (hallow : cacheable (routeCode reqPath) = true)
    (hmiss : c.get now (routeCode reqPath) = none)
    (herr : capiGet (routeCode reqPath) w = Except.error e) :
    mostViewedHandler reqPath c now w
      = some { out := { status := 500, contentType := none, body := "",
                        logged := some (errWrap "CAPI GET failed" e) },
               cache := c, fetched := true } := by
  simp [mostViewedHandler, fetchVia, hallow, cachedGet, hmiss, herr, errorResponse]

/-- Witness for C4 (amended): a transport failure on a miss for "uk" yields a
500 and the cache stays empty. -/
theorem handler_fetch_error_500_no_cache_write_witness :
    mostViewedHandler "/most-viewed/uk" (cacheNew 300) 0 wDown
      = some { out := { status := 500, contentType := none, body := "",
                        logged := some "CAPI GET failed: GET failed: connection refused" },
               cache := cacheNew 300, fetched := true } := by
  exact handler_fetch_error_500_no_cache_write "/most-viewed/uk" (cacheNew 300) 0 wDown
    "GET failed: connection refused" rfl rfl rfl

lemma lookup_mem (l : List (String × CacheEntry)) (k : String) (e : CacheEntry)
    (h : l.lookup k = some e) : (k, e) ∈ l := by
  induction l with
  | nil => simp [List.lookup] at h
  | cons p t ih =>
    obtain ⟨a, b⟩ := p
    rw [List.lookup] at h
    by_cases hk : k = a
    · subst hk
      simp at h
      subst h
      exact List.mem_cons_self _ _
    · have hbeq : (k == a) = false := beq_false_of_ne hk
      rw [hbeq] at h
      exact List.mem_cons_of_mem _ (ih h)

lemma get_capi_of_WF {c : Cache} (hwf : CacheWF c) {now : Nat} {k : String} {v : CacheVal}
    (h : c.get now k = some v) : ∃ r, v = CacheVal.capi r := by
  unfold Cache.get at h
  cases hl : c.items.lookup k with
  | none => rw [hl] at h; simp at h
  | some e =>
    rw [hl] at h
    by_cases hex : now > e.Expiration
    · simp [hex] at h
    · simp [hex] at h
      obtain ⟨r, hr⟩ := hwf k e (lookup_mem _ _ _ hl)
      exact ⟨r, by rw [← h, hr]⟩

lemma set_WF {c : Cache} (hwf : CacheWF c) (now : Nat) (k : String) (r : CAPIResponse) :
    CacheWF (c.set now k (CacheVal.capi r)) := by
  intro k2 e2 hmem
  simp only [Cache.set, List.mem_cons] at hmem
  rcases hmem with heq | hmem
  · obtain ⟨h1, h2⟩ := Prod.mk.injEq .. ▸ congrArg id heq
    exact ⟨r, by rw [h2]⟩
  · exact hwf k2 e2 (List.mem_of_mem_filter hmem)

lemma cachedGet_WF {path : String} {c : Cache} {now : Nat} {w : World} {fr : FetchResult}
    (hwf : CacheWF c) (h : cachedGet path c now w = some fr) : CacheWF fr.cache := by
  unfold cachedGet at h
  cases hg : c.get now path with
  | some v =>
    simp only [hg] at h
    cases hv : v.asCAPIResponse with
    | none => simp [hv] at h
    | some r =>
      simp only [hv] at h
      obtain rfl := Option.some.inj h
      exact hwf
  | none =>
    simp only [hg] at h
    cases hc : capiGet path w with
    | error e =>
      simp only [hc] at h
      obtain rfl := Option.some.inj h
      exact hwf
    | ok items =>
      simp only [hc] at h
      obtain rfl := Option.some.inj h
      exact set_WF hwf now path items

lemma fetchVia_WF {path : String} {c : Cache} {now : Nat} {w : World} {fr : FetchResult}
    (hwf : CacheWF c) (h : fetchVia path c now w = some fr) : CacheWF fr.cache := by
  unfold fetchVia at h
  by_cases hc : cacheable path
  · rw [if_pos hc] at h
    exact cachedGet_WF hwf h
  · rw [if_neg hc] at h
    obtain rfl := Option.some.inj h
    exact hwf

lemma handler_WF {reqPath : String} {c : Cache} {now : Nat} {w : World} {hr : HandlerResult}
    (hwf : CacheWF c) (h : mostViewedHandler reqPath c now w = some hr) : CacheWF hr.cache := by
  unfold mostViewedHandler at h
  cases hf : fetchVia (routeCode reqPath) c now w with
  | none => simp [hf] at h
  | some fr =>
    simp only [hf] at h
    have hfrwf := fetchVia_WF hwf hf
    cases hres : fr.result with
    | error e =>
      simp only [hres] at h
      obtain rfl := Option.some.inj h
      exact hfrwf
    | ok items =>
      simp only [hres] at h
      cases hj : items.asItemList.asJSON with
      | none => simp [hj] at h
      | some respJSON =>
        simp only [hj] at h
        obtain rfl := Option.some.inj h
        exact hfrwf

lemma reachable_WF {c : Cache} (h : Reachable c) : CacheWF c := by
  induction h with
  | init ttl => intro k e hmem; simp [cacheNew] at hmem
  | step c reqPath now w hr hreach hstep ih => exact handler_WF ih hstep

/-- C10: in every cache state this program can reach, every stored value is a
`CAPIResponse`, so the unchecked type assertion `items.(CAPIResponse)` that
`cachedGet` performs on a hit never fails: `cachedGet` never panics. -/
theorem reachable_cache_assertion_safe (c : Cache) (h : Reachable c) :
    CacheWF c ∧ ∀ (path : String) (now : Nat) (w : World),
      (cachedGet path c now w).isSome = true := by
  have hwf := reachable_WF h
  refine ⟨hwf, fun path now w => ?_⟩
  unfold cachedGet
  cases hg : c.get now path with
  | none => cases hc : capiGet path w <;> simp
  | some v =>
    obtain ⟨r, hr⟩ := get_capi_of_WF hwf hg
    subst hr
    simp [CacheVal.asCAPIResponse]

/-- Witness for C10 at the reachable initial (empty) cache state. -/
theorem reachable_cache_assertion_safe_witness :
    (cachedGet "uk" (cacheNew 300) 0 wOK).isSome = true :=
  (reachable_cache_assertion_safe (cacheNew 300) (Reachable.init 300)).2 "uk" 0 wOK

end Onward
